import Mathlib

/-!
Verification of the pyformance reporters (Lightricks/pyformance).

This file gives a shallow embedding of the reporter layer of the repository:
`pyformance/reporters/utils.py`, `line_protocol_reporter.py`, `influx.py`,
`async_influx_reporter.py` and `csv_reporter.py`, together with spec-modelled
stubs for the collaborators whose source files are not part of the reporter
layer (the registry, `MarkInt`, `BaseMetric` and `EventPoint`).

Modelling conventions:
- Python numbers are embedded as `ℤ`/`ℚ`; `int(x)` is truncation toward zero.
- Python dicts are embedded as insertion-ordered association lists.
- Raising code returns `Except PyErr`; the outcome of an external sink
  (file write, HTTP post, SQS send) is passed in as an `Except String Unit`
  argument (the error is the I/O failure message), so that both the
  success and the failure path of each `report_now` are definable.
- Mutation of reporter state is made explicit where a claim depends on it
  (`_stringify_tags` returns the reporter's tag mapping after the call).
-/

namespace Pyformance

/-! ## Generic Python helpers -/

/-- Python `sep.join(xs)`. -/
def joinSep (sep : String) : List String → String
  | [] => ""
  | [x] => x
  | x :: y :: xs => x ++ sep ++ joinSep sep (y :: xs)

/-- Python `int(x)` on a numeric value: truncation toward zero. -/
def truncToInt (q : ℚ) : ℤ :=
  q.num.tdiv q.den

/-- Floor of a rational as an integer (denominators are positive). -/
def ratFloor (q : ℚ) : ℤ :=
  q.num.fdiv q.den

/-- Python `round(x)` (and `timedelta`'s microsecond rounding):
round half to even. -/
def roundHalfEven (q : ℚ) : ℤ :=
  let f := ratFloor q
  let frac := q - (f : ℚ)
  if frac < 1/2 then f
  else if 1/2 < frac then f + 1
  else if f % 2 = 0 then f else f + 1

/-- Python `timestamp or default` for an optional numeric argument:
`None`, `0` and `0.0` are falsy, any other number is used as given. -/
def pyOr (timestamp : Option ℚ) (default : ℚ) : ℚ :=
  match timestamp with
  | none => default
  | some t => if t = 0 then default else t

/-! ## Values crossing the snapshot boundary -/

/-- Scalar Python values that occur in a metric's field mapping.
`markInt n` models an instance of `MarkInt` wrapping the integer `n`.

Modelled from the spec: `MarkInt` (`pyformance/mark_int.py` is not under
`src/`) is the "integer-marked" tagged numeric variant carried through the
snapshot boundary; it holds its payload in the `value` attribute and
carries no other behavior. -/
inductive FieldVal where
  | intV (n : ℤ)
  | floatV (q : ℚ)
  | boolV (b : Bool)
  | strV (s : String)
  | markInt (n : ℤ)
  deriving DecidableEq

/-- A tag mapping (Python dict); identity tags are string→string by the
data model, but the reporters accept arbitrary values, so tag values are
`FieldVal`. -/
abbrev Tags := List (String × FieldVal)

/-- One entry of a metric's field mapping: a scalar field, the ordered
event sequence stored under the `"events"` key, or the identity's tag
mapping stored under the `"tags"` key.

An event point is a pair `(time, values)`;
modelled from the spec: `EventPoint{time, fields}`
(`pyformance/meters/event.py` is not under `src/`); the reporters read the
two attributes `event.time` and `event.values`. -/
inductive MetricEntryVal where
  | field (v : FieldVal)
  | eventsList (evs : List (ℚ × List (String × MetricEntryVal)))
  | tagsMap (t : Tags)

/-- A metric's field mapping, as produced by the registry snapshot:
an insertion-ordered Python dict. -/
abbrev MetricValues := List (String × MetricEntryVal)

/-- An event point: its time and its field mapping (`event.time`,
`event.values` in the source). -/
abbrev EventPoint := ℚ × MetricValues

/-- True of the field mappings the registry snapshot actually produces:
events only under the `"events"` key, tag mappings only under `"tags"`,
scalars everywhere else.  (On mappings outside this set Python's `%s`
rendering of stray objects is address-dependent and is not modelled.) -/
def wellFormedMV (mv : MetricValues) : Bool :=
  mv.all fun e =>
    match e.2 with
    | .field _ => !(e.1 == "events") && !(e.1 == "tags")
    | .eventsList _ => e.1 == "events"
    | .tagsMap _ => e.1 == "tags"

/-- Decimal rendering of the fractional part of a nonnegative rational
(used only by `floatStr`); `fuel` bounds the number of digits. -/
def fracDigits : ℕ → ℕ → ℕ → String
  | 0, _, _ => ""
  | _, 0, _ => ""
  | fuel + 1, r, d =>
    let r10 := r * 10
    toString (r10 / d) ++ fracDigits fuel (r10 % d) d

/-- Rendering of a nonnegative rational in decimal notation. -/
def floatPosStr (q : ℚ) : String :=
  let ip := (ratFloor q).toNat
  let r := (q - (ip : ℚ))
  if r = 0 then toString ip ++ ".0"
  else toString ip ++ "." ++ fracDigits 20 r.num.toNat r.den

/-- Python `str` of a float.  Python prints the shortest round-tripping
decimal; this model prints the exact decimal expansion (up to 20 digits),
which coincides for the decimally-exact values the tests use.  No claim
depends on these digits. -/
def floatStr (q : ℚ) : String :=
  if q < 0 then "-" ++ floatPosStr (-q) else floatPosStr q

/-- Python `str` of a `MarkInt` instance.  `pyformance/mark_int.py` is not
under `src/` and does not document a `__str__`; this placeholder is never
relied upon by any theorem. -/
def markIntStr (n : ℤ) : String :=
  "MarkInt(" ++ toString n ++ ")"

/-- Python `repr` of a scalar value, as used inside `str` of a dict. -/
def fieldRepr : FieldVal → String
  | .intV n => toString n
  | .floatV q => floatStr q
  | .boolV b => if b then "True" else "False"
  | .strV s => "\x27" ++ s ++ "\x27"
  | .markInt n => markIntStr n

/-- Python `str` of a dict (single-quoted `repr` entries). -/
def pyDictStr (t : Tags) : String :=
  "\x7b" ++ joinSep ", " (t.map fun e => "\x27" ++ e.1 ++ "\x27: " ++ fieldRepr e.2) ++ "\x7d"

/-- Python `str` of a scalar value (the `%s` conversion). -/
def pyStrF : FieldVal → String
  | .intV n => toString n
  | .floatV q => floatStr q
  | .boolV b => if b then "True" else "False"
  | .strV s => s
  | .markInt n => markIntStr n

/-- Python `str` of a metric-entry value (the `%s` conversion, and the
`map(str, cols)` of the CSV reporter).  Rendering a raw list of
`EventPoint` objects is address-dependent in Python; the placeholder used
for it here is never relied upon by any theorem. -/
def pyStr : MetricEntryVal → String
  | .field v => pyStrF v
  | .eventsList _ => "<events>"
  | .tagsMap t => pyDictStr t

/-! ## Spec-modelled collaborators -/

/-- Modelled from the spec: `BaseMetric`
(`pyformance/meters/base_metric.py` is not under `src/`).  A metric
identity is a name plus a tag mapping; `get_key` returns the string key
and `get_tags` the tag mapping, and the `key`/`tags` attributes expose the
same data (used by the CSV reporter). -/
structure MetricKey where
  key : String
  tags : Tags

def MetricKey.get_key (m : MetricKey) : String := m.key

def MetricKey.get_tags (m : MetricKey) : Tags := m.tags

/-- Modelled from the spec: `MetricsRegistry`
(`pyformance/registry.py` is not under `src/`).  The registry owns a
snapshot operation `dump_metrics(key_is_metric=True)` returning a mapping
from metric identity to field mapping. -/
structure Registry where
  metrics : List (MetricKey × MetricValues)

/-- The registry snapshot operation (spec: `snapshot()` / source call
sites: `dump_metrics(key_is_metric=True)`). -/
def Registry.dump_metrics (r : Registry) : List (MetricKey × MetricValues) :=
  r.metrics

/-! ## Errors -/

/-- The raising behavior relevant to the reporters:
`unsupportedPrecision` models `Exception("Unsupported ReportingPrecision")`,
`ioError` models a sink I/O failure (`OSError` on a file write, `URLError`
on an HTTP post, a boto error on an SQS send). -/
inductive PyErr where
  | unsupportedPrecision
  | ioError (msg : String)
  deriving DecidableEq

/-! ## pyformance/reporters/utils.py -/

/-- The `ReportingPrecision` enum of `pyformance/reporters/utils.py`. -/
inductive ReportingPrecision where
  | hours | minutes | seconds | milliseconds | microseconds | nanoseconds
  deriving DecidableEq

/-- The `.value` attribute of a `ReportingPrecision` member. -/
def ReportingPrecision.value : ReportingPrecision → String
  | .hours => "h"
  | .minutes => "m"
  | .seconds => "s"
  | .milliseconds => "ms"
  | .microseconds => "u"
  | .nanoseconds => "ns"

/-- The `reporting_precision` argument as a Python value: either a member
of `utils.ReportingPrecision` or any other object (Python does not enforce
the annotation; in particular a member of the distinct enum defined inside
`async_influx_reporter.py` compares unequal to every `utils` member). -/
inductive PrecisionParam where
  | valid (p : ReportingPrecision)
  | invalid
  deriving DecidableEq

/-- `utils.to_timestamp_in_precision`: the chain of equality tests against
the six enum members, ending in `raise Exception("Unsupported
ReportingPrecision")`. -/
def to_timestamp_in_precision (timestamp : ℚ) (precision : PrecisionParam) : Except PyErr ℤ :=
  match precision with
  | .valid .hours => .ok (truncToInt (timestamp / 60 / 60))
  | .valid .minutes => .ok (truncToInt (timestamp / 60))
  | .valid .seconds => .ok (truncToInt timestamp)
  | .valid .milliseconds => .ok (truncToInt (timestamp * 1000))
  | .valid .microseconds => .ok (truncToInt (timestamp * 1000000))
  | .valid .nanoseconds => .ok (truncToInt (timestamp * 1000000000))
  | .invalid => .error .unsupportedPrecision

/-- The value `to_timestamp_in_precision` returns on a supported
precision (used to state the success case). -/
def validPrecTimestamp (p : ReportingPrecision) (timestamp : ℚ) : ℤ :=
  match p with
  | .hours => truncToInt (timestamp / 60 / 60)
  | .minutes => truncToInt (timestamp / 60)
  | .seconds => truncToInt timestamp
  | .milliseconds => truncToInt (timestamp * 1000)
  | .microseconds => truncToInt (timestamp * 1000000)
  | .nanoseconds => truncToInt (timestamp * 1000000000)

/-! ## Shared pieces of the line-protocol pipeline -/

/-- `metric_values.get("events", [])`: the event list stored under the
`"events"` key, `[]` when the key is absent.  (A non-list under that key
would make Python's `for` raise; excluded by `wellFormedMV`.) -/
def getEvents (mv : MetricValues) : List EventPoint :=
  match List.lookup "events" mv with
  | some (.eventsList evs) => evs
  | _ => []

/-- `re.sub("([ ,=])", r"\\\1", value)`: escape each space, comma and
equals sign with a backslash. -/
def escapeTagChars (s : String) : String :=
  String.join (s.data.map fun c =>
    if c = ' ' || c = ',' || c = '=' then "\\" ++ String.singleton c else String.singleton c)

/-- Python `dict.update`: existing keys of `base` keep their position and
take the value from `upd`; keys of `upd` not in `base` are appended in
order. -/
def dictUpdate (base upd : Tags) : Tags :=
  (base.map fun e =>
    match List.lookup e.1 upd with
    | some v => (e.1, v)
    | none => e) ++
  upd.filter fun e => (List.lookup e.1 base).isNone

/-- Python `values[k] = v` on a dict embedded as an association list:
replace the first occurrence in place, else append. -/
def dictSetMV (mv : MetricValues) (k : String) (v : MetricEntryVal) : MetricValues :=
  match mv with
  | [] => [(k, v)]
  | (k2, v2) :: rest =>
    if k2 == k then (k2, v) :: rest else (k2, v2) :: dictSetMV rest k v

/-! ## pyformance/reporters/line_protocol_reporter.py -/

/-- `LineProtocolReporter`.  `pfx` is the source's `prefix` attribute
(that identifier is reserved here); the `path`/`path_suffix` attributes
only name the output files and are not modelled.  `registry` and the
clock come from the `Reporter` base class, modelled from the spec: a
reporter is constructed with a registry, a reporting interval and a clock
(`pyformance/reporters/reporter.py` is not under `src/`). -/
structure LineProtocolReporter where
  registry : Registry
  pfx : String
  global_tags : Tags
  reporting_precision : PrecisionParam

/-- `line_protocol_reporter._format_field_value`: a `MarkInt` becomes the
string `f"{value.value}i"`, a non-`str` value is returned unchanged, a
`str` is wrapped in double quotes. -/
def lp_format_field_value (value : MetricEntryVal) : MetricEntryVal :=
  match value with
  | .field (.markInt n) => .field (.strV (toString n ++ "i"))
  | .field (.strV s) => .field (.strV ("\"" ++ s ++ "\""))
  | v => v

/-- `line_protocol_reporter._format_tag_value`: a non-`str` value is
returned unchanged, a `str` has its special characters escaped. -/
def lp_format_tag_value (value : FieldVal) : FieldVal :=
  match value with
  | .strV s => .strV (escapeTagChars s)
  | v => v

/-- `LineProtocolReporter._stringify_values`: join `k=v` over the field
mapping, skipping the `"tags"` and `"events"` entries. -/
def lp_stringify_values (metric_values : MetricValues) : String :=
  joinSep ","
    ((metric_values.filter fun e => !(e.1 == "tags") && !(e.1 == "events")).map
      fun e => e.1 ++ "=" ++ pyStr (lp_format_field_value e.2))

/-- `LineProtocolReporter._stringify_tags`: copy the reporter's global
tags, update the copy with the metric's own tags, and render the merged
mapping as a leading-comma tag section (empty string when there are no
tags).  The second component is the reporter's `global_tags` after the
call: the source copies before updating, so it is unchanged. -/
def lp_stringify_tags (r : LineProtocolReporter) (metric : MetricKey) : String × Tags :=
  let all_tags := dictUpdate r.global_tags metric.get_tags
  let rendered :=
    if all_tags.isEmpty then ""
    else "," ++ joinSep "," (all_tags.map fun e => e.1 ++ "=" ++ pyStrF (lp_format_tag_value e.2))
  (rendered, r.global_tags)

/-- `LineProtocolReporter._get_table_name`: the metric key, prefixed with
`prefix` and a dot when the prefix is nonempty. -/
def lp_get_table_name (r : LineProtocolReporter) (metric_key : String) : String :=
  if r.pfx = "" then metric_key else r.pfx ++ "." ++ metric_key

/-- The event part of the loop body of
`LineProtocolReporter._get_influx_protocol_lines`: one line per event,
timestamped with the event's own time converted to the reporting
precision (which can raise on an unsupported precision). -/
def lp_event_lines (r : LineProtocolReporter) (table tags : String) :
    List EventPoint → Except PyErr (List String)
  | [] => .ok []
  | ev :: rest => do
    let values := lp_stringify_values ev.2
    let event_timestamp ← to_timestamp_in_precision ev.1 r.reporting_precision
    let line := table ++ tags ++ " " ++ values ++ " " ++ toString event_timestamp
    let ls ← lp_event_lines r table tags rest
    .ok (line :: ls)

/-- One iteration of the loop of
`LineProtocolReporter._get_influx_protocol_lines`: the regular field line
(skipped when `_stringify_values` is empty, i.e. when only events and
tags are present), followed by one line per event. -/
def lp_metric_lines (r : LineProtocolReporter) (key : MetricKey)
    (metric_values : MetricValues) (timestamp : ℤ) : Except PyErr (List String) := do
  let table := lp_get_table_name r key.get_key
  let values := lp_stringify_values metric_values
  let tags := (lp_stringify_tags r key).1
  let regular :=
    if values = "" then []
    else [table ++ tags ++ " " ++ values ++ " " ++ toString timestamp]
  let evLines ← lp_event_lines r table tags (getEvents metric_values)
  .ok (regular ++ evLines)

/-- `LineProtocolReporter._get_influx_protocol_lines`. -/
def lp_get_influx_protocol_lines (r : LineProtocolReporter)
    (metrics : List (MetricKey × MetricValues)) (timestamp : ℤ) : Except PyErr (List String) :=
  match metrics with
  | [] => .ok []
  | (key, mv) :: rest => do
    let l ← lp_metric_lines r key mv timestamp
    let ls ← lp_get_influx_protocol_lines r rest timestamp
    .ok (l ++ ls)

/-- The observable outcome of one `LineProtocolReporter.report_now` call:
the trace of `dump_metrics` invocations, the data handed to the file
sink (if the write was attempted), and the call's result. -/
structure LPOutcome where
  dumped : List Registry
  sent : Option String
  result : Except PyErr Unit

/-- `LineProtocolReporter.report_now`.  `clock_time` is the value
`self.clock.time()` would return; `sink` is the outcome of the file
open/write (`.error msg` for an `OSError` with message `msg`).  The
source has no try/except around the write, so a sink failure
propagates. -/
def lp_report_now (r : LineProtocolReporter) (clock_time : ℚ) (sink : Except String Unit)
    (registry : Option Registry) (timestamp : Option ℚ) : LPOutcome :=
  let ts := pyOr timestamp clock_time
  match to_timestamp_in_precision ts r.reporting_precision with
  | .error e => ⟨[], none, .error e⟩
  | .ok tsp =>
    let reg := registry.getD r.registry
    let metrics := reg.dump_metrics
    match lp_get_influx_protocol_lines r metrics tsp with
    | .error e => ⟨[reg], none, .error e⟩
    | .ok lines =>
      if lines.isEmpty then ⟨[reg], none, .ok ()⟩
      else
        let post_data := joinSep "\n" lines
        match sink with
        | .error msg => ⟨[reg], some post_data, .error (.ioError msg)⟩
        | .ok _ => ⟨[reg], some post_data, .ok ()⟩

/-- `LineProtocolReporter.__init__` as far as the reporting precision is
concerned: the argument is stored without any validation (the path
handling touches only the filesystem), so construction succeeds for every
precision value. -/
def mk_line_protocol_reporter (registry : Registry) (pfx : String) (global_tags : Tags)
    (reporting_precision : PrecisionParam) : Except PyErr LineProtocolReporter :=
  .ok ⟨registry, pfx, global_tags, reporting_precision⟩

/-! ## pyformance/reporters/influx.py -/

/-- `InfluxReporter`.  The connection configuration (`server`, `port`,
`protocol`, `username`, `password`, `retention_policy`) only shapes the
request URL and headers and is not modelled; `did_create_database` is the
source's `_did_create_database` flag. -/
structure InfluxReporter where
  registry : Registry
  pfx : String
  global_tags : Tags
  reporting_precision : PrecisionParam
  database : String
  autocreate_database : Bool
  did_create_database : Bool

/-- `influx._format_field_value` (same body as the line-protocol one). -/
def influx_format_field_value (value : MetricEntryVal) : MetricEntryVal :=
  match value with
  | .field (.markInt n) => .field (.strV (toString n ++ "i"))
  | .field (.strV s) => .field (.strV ("\"" ++ s ++ "\""))
  | v => v

/-- `influx._format_tag_value` (same body as the line-protocol one). -/
def influx_format_tag_value (value : FieldVal) : FieldVal :=
  match value with
  | .strV s => .strV (escapeTagChars s)
  | v => v

/-- `InfluxReporter._stringify_values`. -/
def influx_stringify_values (metric_values : MetricValues) : String :=
  joinSep ","
    ((metric_values.filter fun e => !(e.1 == "tags") && !(e.1 == "events")).map
      fun e => e.1 ++ "=" ++ pyStr (influx_format_field_value e.2))

/-- `InfluxReporter._stringify_tags` (the second component is the
reporter's `global_tags` after the call; the source copies before
updating). -/
def influx_stringify_tags (r : InfluxReporter) (metric : MetricKey) : String × Tags :=
  let all_tags := dictUpdate r.global_tags metric.get_tags
  let rendered :=
    if all_tags.isEmpty then ""
    else "," ++ joinSep "," (all_tags.map fun e => e.1 ++ "=" ++ pyStrF (influx_format_tag_value e.2))
  (rendered, r.global_tags)

/-- `InfluxReporter._get_table_name`. -/
def influx_get_table_name (r : InfluxReporter) (metric_key : String) : String :=
  if r.pfx = "" then metric_key else r.pfx ++ "." ++ metric_key

/-- The event part of the loop body of
`InfluxReporter._get_influx_protocol_lines`. -/
def influx_event_lines (r : InfluxReporter) (table tags : String) :
    List EventPoint → Except PyErr (List String)
  | [] => .ok []
  | ev :: rest => do
    let values := influx_stringify_values ev.2
    let event_timestamp ← to_timestamp_in_precision ev.1 r.reporting_precision
    let line := table ++ tags ++ " " ++ values ++ " " ++ toString event_timestamp
    let ls ← influx_event_lines r table tags rest
    .ok (line :: ls)

/-- One iteration of the loop of
`InfluxReporter._get_influx_protocol_lines`. -/
def influx_metric_lines (r : InfluxReporter) (key : MetricKey)
    (metric_values : MetricValues) (timestamp : ℤ) : Except PyErr (List String) := do
  let table := influx_get_table_name r key.get_key
  let values := influx_stringify_values metric_values
  let tags := (influx_stringify_tags r key).1
  let regular :=
    if values = "" then []
    else [table ++ tags ++ " " ++ values ++ " " ++ toString timestamp]
  let evLines ← influx_event_lines r table tags (getEvents metric_values)
  .ok (regular ++ evLines)

/-- `InfluxReporter._get_influx_protocol_lines`. -/
def influx_get_influx_protocol_lines (r : InfluxReporter)
    (metrics : List (MetricKey × MetricValues)) (timestamp : ℤ) : Except PyErr (List String) :=
  match metrics with
  | [] => .ok []
  | (key, mv) :: rest => do
    let l ← influx_metric_lines r key mv timestamp
    let ls ← influx_get_influx_protocol_lines r rest timestamp
    .ok (l ++ ls)

/-- The observable outcome of one `InfluxReporter.report_now` call:
the `dump_metrics` trace, the data handed to `_try_send` (if any), the
errors logged through `LOG.warning`, the `_did_create_database` flag
after the call, and the call's result. -/
structure InfluxOutcome where
  dumped : List Registry
  posted : Option String
  warnings : List String
  did_create_database : Bool
  result : Except PyErr Unit

/-- `InfluxReporter.report_now`.  `create_outcome` is the outcome of the
`CREATE DATABASE` request issued by `_create_database`, `send_outcome`
the outcome of the write request issued by `_try_send`; both methods
catch `URLError` (the modelled sink failure) and log it, so neither
outcome ever propagates. -/
def influx_report_now (r : InfluxReporter) (clock_time : ℚ)
    (create_outcome send_outcome : Except String Unit)
    (registry : Option Registry) (timestamp : Option ℚ) : InfluxOutcome :=
  let st :=
    if r.autocreate_database && !r.did_create_database then
      match create_outcome with
      | .ok _ => (true, ([] : List String))
      | .error msg => (false, [msg])
    else (r.did_create_database, [])
  let ts := pyOr timestamp clock_time
  match to_timestamp_in_precision ts r.reporting_precision with
  | .error e => ⟨[], none, st.2, st.1, .error e⟩
  | .ok tsp =>
    let reg := registry.getD r.registry
    let metrics := reg.dump_metrics
    match influx_get_influx_protocol_lines r metrics tsp with
    | .error e => ⟨[reg], none, st.2, st.1, .error e⟩
    | .ok lines =>
      if lines.isEmpty then ⟨[reg], none, st.2, st.1, .ok ()⟩
      else
        let post_data := joinSep "\n" lines
        match send_outcome with
        | .ok _ => ⟨[reg], some post_data, st.2, st.1, .ok ()⟩
        | .error msg => ⟨[reg], some post_data, st.2 ++ [msg], st.1, .ok ()⟩

/-! ## pyformance/reporters/async_influx_reporter.py -/

/-- The `ReportingPrecision` enum defined inside
`async_influx_reporter.py` — a distinct Python class from the one in
`utils.py`, with the same six members. -/
inductive AsyncReportingPrecision where
  | hours | minutes | seconds | milliseconds | microseconds | nanoseconds
  deriving DecidableEq

/-- The `.value` attribute of an `AsyncReportingPrecision` member. -/
def AsyncReportingPrecision.value : AsyncReportingPrecision → String
  | .hours => "h"
  | .minutes => "m"
  | .seconds => "s"
  | .milliseconds => "ms"
  | .microseconds => "u"
  | .nanoseconds => "ns"

/-- The `reporting_precision` argument of the async reporter: a member of
the module's own enum, or any other object (including members of
`utils.ReportingPrecision`, which compare unequal to every member of this
enum). -/
inductive AsyncPrecisionParam where
  | valid (p : AsyncReportingPrecision)
  | invalid
  deriving DecidableEq

/-- `async_influx_reporter._to_timestamp_in_precision` (same body as the
one in `utils.py`, over the module's own enum). -/
def async_to_timestamp_in_precision (timestamp : ℚ) (precision : AsyncPrecisionParam) :
    Except PyErr ℤ :=
  match precision with
  | .valid .hours => .ok (truncToInt (timestamp / 60 / 60))
  | .valid .minutes => .ok (truncToInt (timestamp / 60))
  | .valid .seconds => .ok (truncToInt timestamp)
  | .valid .milliseconds => .ok (truncToInt (timestamp * 1000))
  | .valid .microseconds => .ok (truncToInt (timestamp * 1000000))
  | .valid .nanoseconds => .ok (truncToInt (timestamp * 1000000000))
  | .invalid => .error .unsupportedPrecision

/-- The member of the async module's enum with the same meaning as a
member of `utils.ReportingPrecision`. -/
def asyncPrecisionOfUtils : PrecisionParam → AsyncPrecisionParam
  | .valid .hours => .valid .hours
  | .valid .minutes => .valid .minutes
  | .valid .seconds => .valid .seconds
  | .valid .milliseconds => .valid .milliseconds
  | .valid .microseconds => .valid .microseconds
  | .valid .nanoseconds => .valid .nanoseconds
  | .invalid => .invalid

/-- `AsyncInfluxReporter`.  The STS/SQS client construction
(`_get_sqs_client`) and the queue URL are connection plumbing and are not
modelled beyond the send outcome. -/
structure AsyncInfluxReporter where
  registry : Registry
  pfx : String
  global_tags : Tags
  reporting_precision : AsyncPrecisionParam
  database : String

/-- `async_influx_reporter._format_field_value` (same body as the
line-protocol one). -/
def async_format_field_value (value : MetricEntryVal) : MetricEntryVal :=
  match value with
  | .field (.markInt n) => .field (.strV (toString n ++ "i"))
  | .field (.strV s) => .field (.strV ("\"" ++ s ++ "\""))
  | v => v

/-- `async_influx_reporter._format_tag_value` (same body as the
line-protocol one). -/
def async_format_tag_value (value : FieldVal) : FieldVal :=
  match value with
  | .strV s => .strV (escapeTagChars s)
  | v => v

/-- `AsyncInfluxReporter._stringify_values`. -/
def async_stringify_values (metric_values : MetricValues) : String :=
  joinSep ","
    ((metric_values.filter fun e => !(e.1 == "tags") && !(e.1 == "events")).map
      fun e => e.1 ++ "=" ++ pyStr (async_format_field_value e.2))

/-- `AsyncInfluxReporter._stringify_tags` (the second component is the
reporter's `global_tags` after the call; the source copies before
updating). -/
def async_stringify_tags (r : AsyncInfluxReporter) (metric : MetricKey) : String × Tags :=
  let all_tags := dictUpdate r.global_tags metric.get_tags
  let rendered :=
    if all_tags.isEmpty then ""
    else "," ++ joinSep "," (all_tags.map fun e => e.1 ++ "=" ++ pyStrF (async_format_tag_value e.2))
  (rendered, r.global_tags)

/-- `AsyncInfluxReporter._get_table_name`. -/
def async_get_table_name (r : AsyncInfluxReporter) (metric_key : String) : String :=
  if r.pfx = "" then metric_key else r.pfx ++ "." ++ metric_key

/-- The event part of the loop body of
`AsyncInfluxReporter._get_influx_protocol_lines`. -/
def async_event_lines (r : AsyncInfluxReporter) (table tags : String) :
    List EventPoint → Except PyErr (List String)
  | [] => .ok []
  | ev :: rest => do
    let values := async_stringify_values ev.2
    let event_timestamp ← async_to_timestamp_in_precision ev.1 r.reporting_precision
    let line := table ++ tags ++ " " ++ values ++ " " ++ toString event_timestamp
    let ls ← async_event_lines r table tags rest
    .ok (line :: ls)

/-- One iteration of the loop of
`AsyncInfluxReporter._get_influx_protocol_lines`. -/
def async_metric_lines (r : AsyncInfluxReporter) (key : MetricKey)
    (metric_values : MetricValues) (timestamp : ℤ) : Except PyErr (List String) := do
  let table := async_get_table_name r key.get_key
  let values := async_stringify_values metric_values
  let tags := (async_stringify_tags r key).1
  let regular :=
    if values = "" then []
    else [table ++ tags ++ " " ++ values ++ " " ++ toString timestamp]
  let evLines ← async_event_lines r table tags (getEvents metric_values)
  .ok (regular ++ evLines)

/-- `AsyncInfluxReporter._get_influx_protocol_lines`. -/
def async_get_influx_protocol_lines (r : AsyncInfluxReporter)
    (metrics : List (MetricKey × MetricValues)) (timestamp : ℤ) : Except PyErr (List String) :=
  match metrics with
  | [] => .ok []
  | (key, mv) :: rest => do
    let l ← async_metric_lines r key mv timestamp
    let ls ← async_get_influx_protocol_lines r rest timestamp
    .ok (l ++ ls)

/-- The `.value` attribute read while building the SQS message.  It is
only read after `_to_timestamp_in_precision` has succeeded, hence only on
a member of the enum; the `.invalid` branch is unreachable there. -/
def asyncPrecValue : AsyncPrecisionParam → String
  | .valid p => p.value
  | .invalid => ""

/-- `AsyncInfluxReporter._format_sqs_message`: database name, precision
value and the joined report lines. -/
structure SqsMessage where
  database : String
  precision : String
  reports : String
  deriving DecidableEq

/-- The observable outcome of one `AsyncInfluxReporter.report_now` call:
the `dump_metrics` trace, the message handed to `sqs_client.send_message`
(if reached), and the call's result. -/
structure AsyncOutcome where
  dumped : List Registry
  message : Option SqsMessage
  result : Except PyErr Unit

/-- `AsyncInfluxReporter.report_now`.  `send_outcome` is the outcome of
`sqs_client.send_message`; the source has no try/except around it, so a
queue-send failure propagates.  Note there is no emptiness check: the
message is sent even when there are no lines. -/
def async_report_now (r : AsyncInfluxReporter) (clock_time : ℚ)
    (send_outcome : Except String Unit)
    (registry : Option Registry) (timestamp : Option ℚ) : AsyncOutcome :=
  let ts := pyOr timestamp clock_time
  match async_to_timestamp_in_precision ts r.reporting_precision with
  | .error e => ⟨[], none, .error e⟩
  | .ok tsp =>
    let reg := registry.getD r.registry
    let metrics := reg.dump_metrics
    match async_get_influx_protocol_lines r metrics tsp with
    | .error e => ⟨[reg], none, .error e⟩
    | .ok lines =>
      let message : SqsMessage :=
        ⟨r.database, asyncPrecValue r.reporting_precision, joinSep "\n" lines⟩
      match send_outcome with
      | .error msg => ⟨[reg], some message, .error (.ioError msg)⟩
      | .ok _ => ⟨[reg], some message, .ok ()⟩

/-! ## pyformance/reporters/csv_reporter.py -/

/-- Zero-padding to two digits (`strftime` fields). -/
def pad2 (n : ℕ) : String :=
  if n < 10 then "0" ++ toString n else toString n

/-- Zero-padding of the year to four digits (`strftime` rejects
non-positive years, so the negative case is unreachable). -/
def pad4 (n : ℤ) : String :=
  let m := n.toNat
  if m < 10 then "000" ++ toString m
  else if m < 100 then "00" ++ toString m
  else if m < 1000 then "0" ++ toString m
  else toString m

/-- Gregorian civil date from days since the Unix epoch
(`datetime.datetime(1970, 1, 1) + timedelta(days)`). -/
def civilFromDays (z0 : ℤ) : ℤ × ℕ × ℕ :=
  let z := z0 + 719468
  let era := z.ediv 146097
  let doe := (z - era * 146097).toNat
  let yoe := (doe - doe / 1460 + doe / 36524 - doe / 146096) / 365
  let y := (yoe : ℤ) + era * 400
  let doy := doe - (365 * yoe + yoe / 4 - yoe / 100)
  let mp := (5 * doy + 2) / 153
  let d := doy - (153 * mp + 2) / 5 + 1
  let m := if mp < 10 then mp + 3 else mp - 9
  (y + (if m ≤ 2 then 1 else 0), m, d)

/-- `datetime.timedelta(seconds=q)` holds whole microseconds (rounded
half to even). -/
def pyTimedeltaMicros (q : ℚ) : ℤ :=
  roundHalfEven (q * 1000000)

/-- `(datetime.datetime(1970, 1, 1) + datetime.timedelta(seconds=q))
.strftime("%Y-%m-%d %H:%M:%S")`. -/
def formatDate (q : ℚ) : String :=
  let micros := pyTimedeltaMicros q
  let secs := micros.ediv 1000000
  let days := secs.ediv 86400
  let sod := (secs.emod 86400).toNat
  let ymd := civilFromDays days
  pad4 ymd.1 ++ "-" ++ pad2 ymd.2.1 ++ "-" ++ pad2 ymd.2.2 ++ " " ++
    pad2 (sod / 3600) ++ ":" ++ pad2 (sod % 3600 / 60) ++ ":" ++ pad2 (sod % 60)

/-- Insert a string into a sorted list (Python `sorted` is ascending by
code-point order, which is the order on `String`). -/
def insertSorted (x : String) : List String → List String
  | [] => [x]
  | y :: ys => if y < x then y :: insertSorted x ys else x :: y :: ys

/-- Python `sorted` on a list of strings. -/
def sortStrings : List String → List String
  | [] => []
  | x :: xs => insertSorted x (sortStrings xs)

/-- `CsvReporter`.  The `path` attribute and file-handle cache only
address the filesystem; the `separator` joins the columns on write.
The modelled outcome keeps the columns so every column stays
addressable. -/
structure CsvReporter where
  registry : Registry
  separator : String

/-- The header and data row `CsvReporter._save_metrics` produces for one
metric: the target file name, the header columns (written when the file
is new), and the data columns `[date] + [str(values[vk]) for vk in
sorted(values.keys())]` after `values["tags"] = key.tags`. -/
def csv_metric_row (date : String) (key : MetricKey) (metric_values : MetricValues) :
    String × List String × List String :=
  let values := dictSetMV metric_values "tags" (.tagsMap key.tags)
  let value_keys := sortStrings (values.map fun e => e.1)
  let target := key.key ++ ".csv"
  let header := "timestamp" :: value_keys
  let cols := date ::
    value_keys.map fun vk => pyStr ((List.lookup vk values).getD (.field (.strV "")))
  (target, header, cols)

/-- The observable outcome of one `CsvReporter.report_now` call: the
`dump_metrics` trace and the rows produced (one per metric). -/
structure CsvOutcome where
  dumped : List Registry
  rows : List (String × List String × List String)

/-- `CsvReporter._save_metrics`.  `clock_time` is the value
`self.clock.time()` would return; the default timestamp is
`int(round(self.clock.time()))`. -/
def csv_save_metrics (registry : Registry) (clock_time : ℚ) (timestamp : Option ℚ) :
    CsvOutcome :=
  let ts := pyOr timestamp ((roundHalfEven clock_time : ℤ) : ℚ)
  let date := formatDate ts
  let metrics := registry.dump_metrics
  ⟨[registry], metrics.map fun e => csv_metric_row date e.1 e.2⟩

/-- `CsvReporter.report_now`: delegates to `_save_metrics` on
`registry or self.registry`. -/
def csv_report_now (r : CsvReporter) (clock_time : ℚ)
    (registry : Option Registry) (timestamp : Option ℚ) : CsvOutcome :=
  csv_save_metrics (registry.getD r.registry) clock_time timestamp

/-! ## Supporting lemmas -/

theorem ttip_valid (q : ℚ) (p : ReportingPrecision) :
    to_timestamp_in_precision q (.valid p) = .ok (validPrecTimestamp p q) := by
  cases p <;> rfl

theorem ttip_error (q : ℚ) (pp : PrecisionParam) (e : PyErr)
    (h : to_timestamp_in_precision q pp = .error e) :
    pp = .invalid ∧ e = .unsupportedPrecision := by
  cases pp with
  | valid p => cases p <;> simp [to_timestamp_in_precision] at h
  | invalid =>
    refine ⟨rfl, ?_⟩
    simpa [to_timestamp_in_precision] using h.symm

theorem async_ttip_of_utils (q : ℚ) (pp : PrecisionParam) :
    async_to_timestamp_in_precision q (asyncPrecisionOfUtils pp) =
      to_timestamp_in_precision q pp := by
  cases pp with
  | valid p => cases p <;> rfl
  | invalid => rfl

theorem lp_event_lines_valid (r : LineProtocolReporter) (table tags : String)
    (p : ReportingPrecision) (h : r.reporting_precision = .valid p) (evs : List EventPoint) :
    lp_event_lines r table tags evs =
      .ok (evs.map fun ev =>
        table ++ tags ++ " " ++ lp_stringify_values ev.2 ++ " " ++
          toString (validPrecTimestamp p ev.1)) := by
  induction evs with
  | nil => rfl
  | cons ev rest ih =>
    simp only [lp_event_lines, h, ttip_valid, List.map_cons, bind, Except.bind, ih]

theorem lp_metric_lines_valid (r : LineProtocolReporter) (key : MetricKey)
    (mv : MetricValues) (ts : ℤ) (p : ReportingPrecision)
    (h : r.reporting_precision = .valid p) :
    lp_metric_lines r key mv ts =
      .ok ((if lp_stringify_values mv = "" then []
            else [lp_get_table_name r key.get_key ++ (lp_stringify_tags r key).1 ++ " " ++
                  lp_stringify_values mv ++ " " ++ toString ts]) ++
           (getEvents mv).map fun ev =>
             lp_get_table_name r key.get_key ++ (lp_stringify_tags r key).1 ++ " " ++
               lp_stringify_values ev.2 ++ " " ++ toString (validPrecTimestamp p ev.1)) := by
  simp only [lp_metric_lines, lp_event_lines_valid r _ _ p h, bind, Except.bind]

theorem lp_get_lines_valid (r : LineProtocolReporter)
    (metrics : List (MetricKey × MetricValues)) (ts : ℤ) (p : ReportingPrecision)
    (h : r.reporting_precision = .valid p) :
    ∃ lines, lp_get_influx_protocol_lines r metrics ts = .ok lines := by
  induction metrics with
  | nil => exact ⟨[], rfl⟩
  | cons kv rest ih =>
    obtain ⟨ls, hls⟩ := ih
    obtain ⟨k, mv⟩ := kv
    cases hm : lp_metric_lines r k mv ts with
    | error e => rw [lp_metric_lines_valid r k mv ts p h] at hm; cases hm
    | ok l =>
      exact ⟨l ++ ls, by
        simp only [lp_get_influx_protocol_lines, hm, hls, bind, Except.bind]⟩

theorem lp_event_lines_error (r : LineProtocolReporter) (table tags : String)
    (evs : List EventPoint) (e : PyErr)
    (h : lp_event_lines r table tags evs = .error e) : e = .unsupportedPrecision := by
  induction evs with
  | nil => simp [lp_event_lines] at h
  | cons ev rest ih =>
    simp only [lp_event_lines, bind, Except.bind] at h
    cases hc : to_timestamp_in_precision ev.1 r.reporting_precision with
    | error e2 =>
      rw [hc] at h
      cases h
      exact (ttip_error _ _ _ hc).2
    | ok t2 =>
      rw [hc] at h
      cases hr : lp_event_lines r table tags rest with
      | error e3 =>
        rw [hr] at h
        cases h
        exact ih hr
      | ok ls => rw [hr] at h; cases h

theorem lp_metric_lines_error (r : LineProtocolReporter) (key : MetricKey)
    (mv : MetricValues) (ts : ℤ) (e : PyErr)
    (h : lp_metric_lines r key mv ts = .error e) : e = .unsupportedPrecision := by
  simp only [lp_metric_lines, bind, Except.bind] at h
  cases hev : lp_event_lines r (lp_get_table_name r key.get_key) (lp_stringify_tags r key).1
      (getEvents mv) with
  | error e2 =>
    rw [hev] at h
    cases h
    exact lp_event_lines_error _ _ _ _ _ hev
  | ok ls => rw [hev] at h; cases h

theorem lp_get_lines_error (r : LineProtocolReporter)
    (metrics : List (MetricKey × MetricValues)) (ts : ℤ) (e : PyErr)
    (h : lp_get_influx_protocol_lines r metrics ts = .error e) : e = .unsupportedPrecision := by
  induction metrics with
  | nil => simp [lp_get_influx_protocol_lines] at h
  | cons kv rest ih =>
    obtain ⟨k, mv⟩ := kv
    simp only [lp_get_influx_protocol_lines, bind, Except.bind] at h
    cases hm : lp_metric_lines r k mv ts with
    | error e2 =>
      rw [hm] at h
      cases h
      exact lp_metric_lines_error _ _ _ _ _ hm
    | ok l =>
      rw [hm] at h
      cases hr : lp_get_influx_protocol_lines r rest ts with
      | error e3 =>
        rw [hr] at h
        cases h
        exact ih hr
      | ok ls => rw [hr] at h; cases h

/-! ### Equivalence of the three line-generation pipelines -/

/-- The line-generation state of an `InfluxReporter`, seen as a
`LineProtocolReporter` (the fields the serializers read). -/
def lpOfInflux (r : InfluxReporter) : LineProtocolReporter :=
  ⟨r.registry, r.pfx, r.global_tags, r.reporting_precision⟩

theorem influx_format_field_value_eq (v : MetricEntryVal) :
    influx_format_field_value v = lp_format_field_value v := rfl

theorem influx_stringify_values_eq (mv : MetricValues) :
    influx_stringify_values mv = lp_stringify_values mv := rfl

theorem influx_stringify_tags_eq (r : InfluxReporter) (m : MetricKey) :
    influx_stringify_tags r m = lp_stringify_tags (lpOfInflux r) m := rfl

theorem influx_get_table_name_eq (r : InfluxReporter) (k : String) :
    influx_get_table_name r k = lp_get_table_name (lpOfInflux r) k := rfl

theorem influx_event_lines_eq (r : InfluxReporter) (table tags : String)
    (evs : List EventPoint) :
    influx_event_lines r table tags evs = lp_event_lines (lpOfInflux r) table tags evs := by
  induction evs with
  | nil => rfl
  | cons ev rest ih =>
    simp only [influx_event_lines, lp_event_lines, bind, Except.bind, ih, lpOfInflux,
      influx_stringify_values_eq]

theorem influx_metric_lines_eq (r : InfluxReporter) (key : MetricKey)
    (mv : MetricValues) (ts : ℤ) :
    influx_metric_lines r key mv ts = lp_metric_lines (lpOfInflux r) key mv ts := by
  simp only [influx_metric_lines, lp_metric_lines, influx_event_lines_eq, bind, Except.bind,
    influx_stringify_values_eq, influx_stringify_tags_eq, influx_get_table_name_eq]

theorem influx_get_lines_eq (r : InfluxReporter)
    (metrics : List (MetricKey × MetricValues)) (ts : ℤ) :
    influx_get_influx_protocol_lines r metrics ts =
      lp_get_influx_protocol_lines (lpOfInflux r) metrics ts := by
  induction metrics with
  | nil => rfl
  | cons kv rest ih =>
    obtain ⟨k, mv⟩ := kv
    simp only [influx_get_influx_protocol_lines, lp_get_influx_protocol_lines, bind,
      Except.bind, influx_metric_lines_eq, ih]

theorem async_stringify_values_eq (mv : MetricValues) :
    async_stringify_values mv = lp_stringify_values mv := rfl

theorem async_event_lines_eq (reg : Registry) (px : String) (gt : Tags) (db : String)
    (pp : PrecisionParam) (table tags : String) (evs : List EventPoint) :
    async_event_lines ⟨reg, px, gt, asyncPrecisionOfUtils pp, db⟩ table tags evs =
      lp_event_lines ⟨reg, px, gt, pp⟩ table tags evs := by
  induction evs with
  | nil => rfl
  | cons ev rest ih =>
    simp only [async_event_lines, lp_event_lines, bind, Except.bind, ih,
      async_ttip_of_utils, async_stringify_values_eq]

theorem async_metric_lines_eq (reg : Registry) (px : String) (gt : Tags) (db : String)
    (pp : PrecisionParam) (key : MetricKey) (mv : MetricValues) (ts : ℤ) :
    async_metric_lines ⟨reg, px, gt, asyncPrecisionOfUtils pp, db⟩ key mv ts =
      lp_metric_lines ⟨reg, px, gt, pp⟩ key mv ts := by
  simp only [async_metric_lines, lp_metric_lines, bind, Except.bind,
    async_event_lines_eq, async_stringify_values_eq]
  rfl

theorem async_get_lines_eq (reg : Registry) (px : String) (gt : Tags) (db : String)
    (pp : PrecisionParam) (metrics : List (MetricKey × MetricValues)) (ts : ℤ) :
    async_get_influx_protocol_lines ⟨reg, px, gt, asyncPrecisionOfUtils pp, db⟩ metrics ts =
      lp_get_influx_protocol_lines ⟨reg, px, gt, pp⟩ metrics ts := by
  induction metrics with
  | nil => rfl
  | cons kv rest ih =>
    obtain ⟨k, mv⟩ := kv
    simp only [async_get_influx_protocol_lines, lp_get_influx_protocol_lines, bind,
      Except.bind, async_metric_lines_eq, ih]

/-! ### Dictionary and sorting lemmas -/

theorem lookup_filter_of_key (k : String) (t : Tags) (p : String × FieldVal → Bool)
    (h : ∀ e ∈ t, e.1 = k → p e = true) :
    List.lookup k (t.filter p) = List.lookup k t := by
  induction t with
  | nil => rfl
  | cons e rest ih =>
    have ih2 := ih fun e2 he2 => h e2 (List.mem_cons_of_mem _ he2)
    obtain ⟨ek, ev⟩ := e
    by_cases hke : k = ek
    · have hp := h (ek, ev) (List.mem_cons_self _ _) hke.symm
      subst hke
      simp [List.filter_cons, hp, List.lookup_cons]
    · have hbe : (k == ek) = false := by
        simp [hke]
      cases hp : p (ek, ev) <;>
        simp [List.filter_cons, hp, List.lookup_cons, hbe, ih2]

theorem lookup_map_update (g t : Tags) (k : String) (v : FieldVal)
    (h : List.lookup k t = some v) (hg : List.lookup k g ≠ none) :
    List.lookup k (g.map fun e =>
      match List.lookup e.1 t with
      | some w => (e.1, w)
      | none => e) = some v := by
  induction g with
  | nil => simp [List.lookup] at hg
  | cons e rest ih =>
    obtain ⟨ek, ev⟩ := e
    by_cases hke : k = ek
    · subst hke
      simp [List.map_cons, h, List.lookup_cons]
    · have hbe : (k == ek) = false := by simp [hke]
      have hg2 : List.lookup k rest ≠ none := by
        simpa [List.lookup_cons, hbe] using hg
      cases hlu : List.lookup ek t <;>
        simp [List.map_cons, hlu, List.lookup_cons, hbe, ih hg2]

theorem lookup_map_none (g t : Tags) (k : String) (hg : List.lookup k g = none) :
    List.lookup k (g.map fun e =>
      match List.lookup e.1 t with
      | some w => (e.1, w)
      | none => e) = none := by
  induction g with
  | nil => rfl
  | cons e rest ih =>
    obtain ⟨ek, ev⟩ := e
    by_cases hke : k = ek
    · subst hke
      simp [List.lookup_cons] at hg
    · have hbe : (k == ek) = false := by simp [hke]
      have hg2 : List.lookup k rest = none := by
        simpa [List.lookup_cons, hbe] using hg
      cases hlu : List.lookup ek t <;>
        simp [List.map_cons, hlu, List.lookup_cons, hbe, ih hg2]

/-- The key fact behind tag shadowing: after `dict.update`, a key present
in the metric's own tags resolves to the metric's value. -/
theorem lookup_dictUpdate (g t : Tags) (k : String) (v : FieldVal)
    (h : List.lookup k t = some v) :
    List.lookup k (dictUpdate g t) = some v := by
  rw [dictUpdate, List.lookup_append]
  cases hg : List.lookup k g with
  | some w =>
    rw [lookup_map_update g t k v h (by rw [hg]; exact fun hh => Option.noConfusion hh)]
    rfl
  | none =>
    rw [lookup_map_none g t k hg]
    rw [Option.none_or]
    rw [lookup_filter_of_key k t _ ?_]
    · exact h
    · intro e he hek
      rw [hek, hg]
      rfl

theorem mem_insertSorted (a x : String) (l : List String) :
    a ∈ insertSorted x l ↔ a = x ∨ a ∈ l := by
  induction l with
  | nil => simp [insertSorted]
  | cons y ys ih =>
    by_cases h : y < x <;> simp [insertSorted, h, ih] <;> try tauto

theorem mem_sortStrings (a : String) (l : List String) :
    a ∈ sortStrings l ↔ a ∈ l := by
  induction l with
  | nil => simp [sortStrings]
  | cons x xs ih => simp [sortStrings, mem_insertSorted, ih]

theorem mem_keys_dictSetMV (mv : MetricValues) (k : String) (v : MetricEntryVal) :
    k ∈ (dictSetMV mv k v).map fun e => e.1 := by
  induction mv with
  | nil => simp [dictSetMV]
  | cons e rest ih =>
    obtain ⟨ek, ev⟩ := e
    by_cases h : ek = k
    · simp [dictSetMV, h]
    · simp [dictSetMV, h, ih]

theorem lookup_dictSetMV (mv : MetricValues) (k : String) (v : MetricEntryVal) :
    List.lookup k (dictSetMV mv k v) = some v := by
  induction mv with
  | nil => simp [dictSetMV, List.lookup_cons]
  | cons e rest ih =>
    obtain ⟨ek, ev⟩ := e
    by_cases h : ek = k
    · subst h
      simp [dictSetMV, List.lookup_cons]
    · have hbe : (ek == k) = false := by simp [h]
      have hbe2 : (k == ek) = false := by
        simp only [beq_eq_false_iff_ne, ne_eq]
        exact fun hh => h hh.symm
      simp [dictSetMV, hbe, List.lookup_cons, hbe2, ih]

/-! ### Further supporting lemmas -/

/-- The member of `utils.ReportingPrecision` with the same meaning as a
member of the async module's enum. -/
def utilsPrecOfAsync : AsyncReportingPrecision → ReportingPrecision
  | .hours => .hours
  | .minutes => .minutes
  | .seconds => .seconds
  | .milliseconds => .milliseconds
  | .microseconds => .microseconds
  | .nanoseconds => .nanoseconds

theorem asyncPrecisionOfUtils_utilsPrecOfAsync (q : AsyncReportingPrecision) :
    AsyncPrecisionParam.valid q = asyncPrecisionOfUtils (.valid (utilsPrecOfAsync q)) := by
  cases q <;> rfl

theorem async_ttip_valid (ts : ℚ) (q : AsyncReportingPrecision) :
    async_to_timestamp_in_precision ts (.valid q) =
      .ok (validPrecTimestamp (utilsPrecOfAsync q) ts) := by
  cases q <;> rfl

theorem async_get_lines_valid (r : AsyncInfluxReporter)
    (metrics : List (MetricKey × MetricValues)) (ts : ℤ) (q : AsyncReportingPrecision)
    (h : r.reporting_precision = .valid q) :
    ∃ lines, async_get_influx_protocol_lines r metrics ts = .ok lines := by
  obtain ⟨reg, px, gt, pp, db⟩ := r
  simp only at h
  subst h
  rw [asyncPrecisionOfUtils_utilsPrecOfAsync, async_get_lines_eq]
  exact lp_get_lines_valid _ metrics ts _ rfl

theorem async_get_lines_error (r : AsyncInfluxReporter)
    (metrics : List (MetricKey × MetricValues)) (ts : ℤ) (e : PyErr)
    (h : async_get_influx_protocol_lines r metrics ts = .error e) :
    e = .unsupportedPrecision := by
  obtain ⟨reg, px, gt, pp, db⟩ := r
  cases pp with
  | valid q =>
    rw [asyncPrecisionOfUtils_utilsPrecOfAsync, async_get_lines_eq] at h
    obtain ⟨lines, hl⟩ := lp_get_lines_valid ⟨reg, px, gt, .valid (utilsPrecOfAsync q)⟩
      metrics ts (utilsPrecOfAsync q) rfl
    rw [hl] at h
    cases h
  | invalid =>
    have : AsyncPrecisionParam.invalid = asyncPrecisionOfUtils .invalid := rfl
    rw [this, async_get_lines_eq] at h
    exact lp_get_lines_error _ metrics ts e h

theorem influx_get_lines_valid (r : InfluxReporter)
    (metrics : List (MetricKey × MetricValues)) (ts : ℤ) (p : ReportingPrecision)
    (h : r.reporting_precision = .valid p) :
    ∃ lines, influx_get_influx_protocol_lines r metrics ts = .ok lines := by
  rw [influx_get_lines_eq]
  exact lp_get_lines_valid (lpOfInflux r) metrics ts p h

theorem pyOr_some_zero (c : ℚ) : pyOr (some 0) c = pyOr none c := by
  simp [pyOr]

theorem pyOr_some_ne (t c : ℚ) (h : t ≠ 0) : pyOr (some t) c = t := by
  simp [pyOr, h]

/-! ### Concrete data used by witnesses and counterexamples -/

/-- A registry holding one counter metric (the situation of
`test_report_now_writes_to_file`). -/
def sampleKey : MetricKey := ⟨"test-counter", []⟩

def sampleMV : MetricValues := [("count", .field (.intV 1))]

def sampleRegistry : Registry := ⟨[(sampleKey, sampleMV)]⟩

def sampleLP : LineProtocolReporter := ⟨sampleRegistry, "", [], .valid .seconds⟩

def sampleInflux : InfluxReporter := ⟨sampleRegistry, "", [], .valid .seconds, "metrics", false, false⟩

def sampleAsync : AsyncInfluxReporter := ⟨sampleRegistry, "", [], .valid .seconds, "metrics"⟩

/-- A line-protocol reporter constructed with an unsupported precision
value. -/
def invalidLP : LineProtocolReporter := ⟨sampleRegistry, "", [], .invalid⟩

/-- A metric identity carrying tags, and a field mapping holding only
events and tags. -/
def evKey : MetricKey := ⟨"ev", [("host", .strV "h one")]⟩

def evMV : MetricValues :=
  [("events", .eventsList [(3, [("f", .field (.intV 1))]), (4, [("f", .field (.intV 2))])]),
   ("tags", .tagsMap [("host", .strV "h one")])]

def evRegistry : Registry := ⟨[(evKey, evMV)]⟩

def evLP : LineProtocolReporter := ⟨evRegistry, "pre", [("g", .strV "gv")], .valid .seconds⟩

/-! ## Claim theorems -/

/-- True exactly of values that are `MarkInt` instances
(`isinstance(value, MarkInt)`). -/
def isMarkIntVal : MetricEntryVal → Bool
  | .field (.markInt _) => true
  | _ => false

/-- True exactly of values of type `str` (`type(value) is str`). -/
def isStrVal : MetricEntryVal → Bool
  | .field (.strV _) => true
  | _ => false

/-- C4: the line-protocol field serializers of both
`line_protocol_reporter.py` and `influx.py` emit a `MarkInt`-wrapped
payload as a strict integer literal with the trailing `i` marker, wrap a
plain string field value in double quotes, and pass any other unwrapped
value through unchanged — the wrapper affects serialization only. -/
theorem C4_mark_int_serialization :
    (∀ n : ℤ,
      lp_format_field_value (.field (.markInt n)) = .field (.strV (toString n ++ "i")) ∧
      influx_format_field_value (.field (.markInt n)) = .field (.strV (toString n ++ "i"))) ∧
    (∀ s : String,
      lp_format_field_value (.field (.strV s)) = .field (.strV ("\"" ++ s ++ "\"")) ∧
      influx_format_field_value (.field (.strV s)) = .field (.strV ("\"" ++ s ++ "\""))) ∧
    (∀ v : MetricEntryVal, isMarkIntVal v = false → isStrVal v = false →
      lp_format_field_value v = v ∧ influx_format_field_value v = v) := by
  refine ⟨fun n => ⟨rfl, rfl⟩, fun s => ⟨rfl, rfl⟩, fun v h1 h2 => ?_⟩
  cases v with
  | field f =>
    cases f with
    | intV n => exact ⟨rfl, rfl⟩
    | floatV q => exact ⟨rfl, rfl⟩
    | boolV b => exact ⟨rfl, rfl⟩
    | strV s => exact absurd h2 (by simp [isStrVal])
    | markInt n => exact absurd h1 (by simp [isMarkIntVal])
  | eventsList evs => exact ⟨rfl, rfl⟩
  | tagsMap t => exact ⟨rfl, rfl⟩

/-- Witness for C4 at a concrete unwrapped integer value. -/
theorem C4_witness :
    isMarkIntVal (.field (.intV 3)) = false ∧ isStrVal (.field (.intV 3)) = false ∧
    (lp_format_field_value (.field (.intV 3)) = .field (.intV 3) ∧
     influx_format_field_value (.field (.intV 3)) = .field (.intV 3)) :=
  ⟨rfl, rfl, C4_mark_int_serialization.2.2 (.field (.intV 3)) rfl rfl⟩

/-- C7: for every metrics mapping, timestamp, prefix, global-tag mapping
and reporting precision, the line-generation functions of
`InfluxReporter`, `LineProtocolReporter` and `AsyncInfluxReporter`
produce identical results: the three serializer stacks implement one
line format. -/
theorem C7_line_format_equivalence (reg : Registry) (px : String) (gt : Tags)
    (pp : PrecisionParam) (db : String) (auto didc : Bool)
    (metrics : List (MetricKey × MetricValues)) (ts : ℤ) :
    influx_get_influx_protocol_lines ⟨reg, px, gt, pp, db, auto, didc⟩ metrics ts =
      lp_get_influx_protocol_lines ⟨reg, px, gt, pp⟩ metrics ts ∧
    async_get_influx_protocol_lines ⟨reg, px, gt, asyncPrecisionOfUtils pp, db⟩ metrics ts =
      lp_get_influx_protocol_lines ⟨reg, px, gt, pp⟩ metrics ts :=
  ⟨influx_get_lines_eq ⟨reg, px, gt, pp, db, auto, didc⟩ metrics ts,
   async_get_lines_eq reg px gt db pp metrics ts⟩

/-- C8: rendering the tag section leaves the reporter's `global_tags`
mapping unchanged in all three line-protocol reporters (the merge
operates on a copy), and a key present in the metric's own tag mapping
resolves to the metric's value — not the global value — in the merged
mapping that is rendered. -/
theorem C8_global_tags_frame :
    (∀ (r : LineProtocolReporter) (m : MetricKey),
      (lp_stringify_tags r m).2 = r.global_tags) ∧
    (∀ (r : InfluxReporter) (m : MetricKey),
      (influx_stringify_tags r m).2 = r.global_tags) ∧
    (∀ (r : AsyncInfluxReporter) (m : MetricKey),
      (async_stringify_tags r m).2 = r.global_tags) ∧
    (∀ (r : LineProtocolReporter) (m : MetricKey) (k : String) (v : FieldVal),
      List.lookup k m.get_tags = some v →
      List.lookup k (dictUpdate r.global_tags m.get_tags) = some v) :=
  ⟨fun _ _ => rfl, fun _ _ => rfl, fun _ _ => rfl,
   fun _ m k v h => lookup_dictUpdate _ m.get_tags k v h⟩

/-- Witness for C8: a key shared by `global_tags` and the metric's tags
resolves to the metric's value. -/
theorem C8_witness :
    List.lookup "host" (MetricKey.get_tags ⟨"m", [("host", .strV "local")]⟩) =
      some (.strV "local") ∧
    List.lookup "host"
      (dictUpdate (LineProtocolReporter.global_tags
          ⟨sampleRegistry, "", [("host", .strV "global")], .valid .seconds⟩)
        (MetricKey.get_tags ⟨"m", [("host", .strV "local")]⟩)) = some (.strV "local") :=
  ⟨rfl, C8_global_tags_frame.2.2.2
    ⟨sampleRegistry, "", [("host", .strV "global")], .valid .seconds⟩
    ⟨"m", [("host", .strV "local")]⟩ "host" (.strV "local") rfl⟩

theorem lp_report_now_timestamp_congr (r : LineProtocolReporter) (c1 c2 : ℚ)
    (sink : Except String Unit) (reg : Option Registry) (t1 t2 : Option ℚ)
    (h : pyOr t1 c1 = pyOr t2 c2) :
    lp_report_now r c1 sink reg t1 = lp_report_now r c2 sink reg t2 := by
  simp only [lp_report_now, h]

theorem influx_report_now_timestamp_congr (r : InfluxReporter) (c1 c2 : ℚ)
    (co so : Except String Unit) (reg : Option Registry) (t1 t2 : Option ℚ)
    (h : pyOr t1 c1 = pyOr t2 c2) :
    influx_report_now r c1 co so reg t1 = influx_report_now r c2 co so reg t2 := by
  simp only [influx_report_now, h]

theorem csv_report_now_timestamp_congr (r : CsvReporter) (c1 c2 : ℚ)
    (reg : Option Registry) (t1 t2 : Option ℚ)
    (h : pyOr t1 ((roundHalfEven c1 : ℤ) : ℚ) = pyOr t2 ((roundHalfEven c2 : ℤ) : ℚ)) :
    csv_report_now r c1 reg t1 = csv_report_now r c2 reg t2 := by
  simp only [csv_report_now, csv_save_metrics, h]

/-- C9: for the Influx, line-protocol and CSV reporters, an explicit
timestamp of `0` is discarded by the `timestamp or ...` truthiness test
and the clock's current time is substituted, exactly as if no timestamp
had been passed; a non-zero explicit timestamp is used as given (the
clock is not consulted). -/
theorem C9_falsy_timestamp :
    (∀ (r : LineProtocolReporter) (c : ℚ) (sink : Except String Unit) (reg : Option Registry),
      lp_report_now r c sink reg (some 0) = lp_report_now r c sink reg none) ∧
    (∀ (r : InfluxReporter) (c : ℚ) (co so : Except String Unit) (reg : Option Registry),
      influx_report_now r c co so reg (some 0) = influx_report_now r c co so reg none) ∧
    (∀ (r : CsvReporter) (c : ℚ) (reg : Option Registry),
      csv_report_now r c reg (some 0) = csv_report_now r c reg none) ∧
    (∀ (r : LineProtocolReporter) (c t : ℚ) (sink : Except String Unit) (reg : Option Registry),
      t ≠ 0 → lp_report_now r c sink reg (some t) = lp_report_now r t sink reg none) ∧
    (∀ (r : InfluxReporter) (c t : ℚ) (co so : Except String Unit) (reg : Option Registry),
      t ≠ 0 → influx_report_now r c co so reg (some t) = influx_report_now r t co so reg none) ∧
    (∀ (r : CsvReporter) (c t : ℚ) (reg : Option Registry),
      t ≠ 0 → csv_report_now r c reg (some t) =
        ⟨[reg.getD r.registry],
         (reg.getD r.registry).dump_metrics.map fun e =>
           csv_metric_row (formatDate t) e.1 e.2⟩) := by
  refine ⟨fun r c sink reg => lp_report_now_timestamp_congr r c c sink reg _ _ (pyOr_some_zero c),
    fun r c co so reg => influx_report_now_timestamp_congr r c c co so reg _ _ (pyOr_some_zero c),
    fun r c reg => csv_report_now_timestamp_congr r c c reg _ _ (pyOr_some_zero _),
    fun r c t sink reg h => lp_report_now_timestamp_congr r c t sink reg _ _ (pyOr_some_ne t c h),
    fun r c t co so reg h =>
      influx_report_now_timestamp_congr r c t co so reg _ _ (pyOr_some_ne t c h),
    fun r c t reg h => ?_⟩
  simp only [csv_report_now, csv_save_metrics, Registry.dump_metrics, pyOr_some_ne t _ h]

/-- Witness for C9 at a concrete non-zero timestamp. -/
theorem C9_witness :
    (5 : ℚ) ≠ 0 ∧
    lp_report_now sampleLP 77 (.ok ()) none (some 5) =
      lp_report_now sampleLP 5 (.ok ()) none none :=
  ⟨by norm_num, C9_falsy_timestamp.2.2.2.1 sampleLP 77 5 (.ok ()) none (by norm_num)⟩

/-- Counterexample to C1 as stated: a file-write failure inside
`LineProtocolReporter.report_now` is not caught — at this concrete
reporter and snapshot, `report_now` raises the sink's `OSError` to its
caller instead of logging it and returning normally. -/
theorem C1_counterexample :
    (lp_report_now sampleLP 1234567890 (.error "No space left on device") none none).result =
      .error (.ioError "No space left on device") := rfl

/-- C1 (amended): only `InfluxReporter.report_now` contains its sink
failures: `_create_database` and `_try_send` catch the `URLError` and log
it, so no sink failure ever escapes `report_now` (its only raise is the
unsupported-precision one), and a failed send is logged;
`LineProtocolReporter.report_now` and `AsyncInfluxReporter.report_now`
have no try/except around their sinks, so a file-write or queue-send
failure propagates to the caller.  Each call's outcome depends only on
its own arguments, so a subsequent attempt proceeds independently of an
earlier failure. -/
theorem C1_sink_error_containment :
    (∀ (r : InfluxReporter) (c : ℚ) (co so : Except String Unit) (reg : Option Registry)
       (ts : Option ℚ) (e : PyErr),
      (influx_report_now r c co so reg ts).result = .error e → e = .unsupportedPrecision) ∧
    (∀ (r : InfluxReporter) (c : ℚ) (reg : Option Registry) (ts : Option ℚ)
       (p : ReportingPrecision) (msg : String) (lines : List String),
      r.reporting_precision = .valid p → r.autocreate_database = false →
      influx_get_influx_protocol_lines r ((reg.getD r.registry).dump_metrics)
        (validPrecTimestamp p (pyOr ts c)) = .ok lines → lines ≠ [] →
      (influx_report_now r c (.ok ()) (.error msg) reg ts).warnings = [msg] ∧
      (influx_report_now r c (.ok ()) (.error msg) reg ts).result = .ok ()) ∧
    (∀ (r : LineProtocolReporter) (c : ℚ) (reg : Option Registry) (ts : Option ℚ)
       (p : ReportingPrecision) (msg : String) (lines : List String),
      r.reporting_precision = .valid p →
      lp_get_influx_protocol_lines r ((reg.getD r.registry).dump_metrics)
        (validPrecTimestamp p (pyOr ts c)) = .ok lines → lines ≠ [] →
      (lp_report_now r c (.error msg) reg ts).result = .error (.ioError msg)) ∧
    (∀ (r : AsyncInfluxReporter) (c : ℚ) (reg : Option Registry) (ts : Option ℚ)
       (q : AsyncReportingPrecision) (msg : String),
      r.reporting_precision = .valid q →
      (async_report_now r c (.error msg) reg ts).result = .error (.ioError msg)) := by
  refine ⟨fun r c co so reg ts e h => ?_, fun r c reg ts p msg lines h hauto hg hne => ?_,
    fun r c reg ts p msg lines h hg hne => ?_, fun r c reg ts q msg h => ?_⟩
  · cases hc : to_timestamp_in_precision (pyOr ts c) r.reporting_precision with
    | error e2 =>
      have h2 : (influx_report_now r c co so reg ts).result = .error e2 := by
        simp only [influx_report_now, hc]
      rw [h2] at h
      injection h with h
      subst h
      exact (ttip_error _ _ _ hc).2
    | ok tsp =>
      cases hg : influx_get_influx_protocol_lines r (reg.getD r.registry).metrics tsp with
      | error e3 =>
        have h2 : (influx_report_now r c co so reg ts).result = .error e3 := by
          simp only [influx_report_now, hc, Registry.dump_metrics, hg]
        rw [h2] at h
        injection h with h
        subst h
        rw [influx_get_lines_eq] at hg
        exact lp_get_lines_error _ _ _ _ hg
      | ok lines =>
        have h2 : (influx_report_now r c co so reg ts).result = .ok () := by
          simp only [influx_report_now, hc, Registry.dump_metrics, hg]
          by_cases hemp : lines.isEmpty <;> cases so <;> simp [hemp]
        rw [h2] at h
        cases h
  · simp only [Registry.dump_metrics] at hg
    have hemp : lines.isEmpty = false := by
      simp [List.isEmpty_iff, hne]
    constructor <;>
      simp [influx_report_now, h, ttip_valid, Registry.dump_metrics, hg, hemp, hauto]
  · simp only [Registry.dump_metrics] at hg
    have hemp : lines.isEmpty = false := by
      simp [List.isEmpty_iff, hne]
    simp [lp_report_now, h, ttip_valid, Registry.dump_metrics, hg, hemp]
  · obtain ⟨lines, hg⟩ := async_get_lines_valid r ((reg.getD r.registry).dump_metrics)
      (validPrecTimestamp (utilsPrecOfAsync q) (pyOr ts c)) q h
    simp only [Registry.dump_metrics] at hg
    simp [async_report_now, h, async_ttip_valid, Registry.dump_metrics, hg]

/-- Witness for C1 (amended) at a concrete reporter, snapshot and failed
write. -/
theorem C1_witness :
    sampleLP.reporting_precision = PrecisionParam.valid .seconds ∧
    lp_get_influx_protocol_lines sampleLP
      (((none : Option Registry).getD sampleLP.registry).dump_metrics)
      (validPrecTimestamp .seconds (pyOr none 1234567890)) =
        .ok ["test-counter count=1 1234567890"] ∧
    (["test-counter count=1 1234567890"] : List String) ≠ [] ∧
    (lp_report_now sampleLP 1234567890 (.error "disk full") none none).result =
      .error (.ioError "disk full") :=
  ⟨rfl, rfl, by simp,
   C1_sink_error_containment.2.2.1 sampleLP 1234567890 none none .seconds "disk full"
     ["test-counter count=1 1234567890"] rfl rfl (by simp)⟩

/-- C2: every reporter's `report_now` takes exactly one registry
snapshot — on the registry passed as argument when one is given,
otherwise on the registry supplied at construction — and what it hands
its sink is exactly the serialization of that one snapshot (the Influx
and line-protocol reporters skip the sink call when the serialization is
empty; the async reporter always sends; the CSV reporter writes one row
per snapshot entry). -/
theorem C2_snapshot_once_and_forward :
    (∀ (r : LineProtocolReporter) (c : ℚ) (sink : Except String Unit) (reg : Option Registry)
       (ts : Option ℚ) (p : ReportingPrecision), r.reporting_precision = .valid p →
      (lp_report_now r c sink reg ts).dumped = [reg.getD r.registry] ∧
      ∃ lines, lp_get_influx_protocol_lines r ((reg.getD r.registry).dump_metrics)
          (validPrecTimestamp p (pyOr ts c)) = .ok lines ∧
        (lp_report_now r c sink reg ts).sent =
          (if lines.isEmpty then none else some (joinSep "\n" lines))) ∧
    (∀ (r : InfluxReporter) (c : ℚ) (co so : Except String Unit) (reg : Option Registry)
       (ts : Option ℚ) (p : ReportingPrecision), r.reporting_precision = .valid p →
      (influx_report_now r c co so reg ts).dumped = [reg.getD r.registry] ∧
      ∃ lines, influx_get_influx_protocol_lines r ((reg.getD r.registry).dump_metrics)
          (validPrecTimestamp p (pyOr ts c)) = .ok lines ∧
        (influx_report_now r c co so reg ts).posted =
          (if lines.isEmpty then none else some (joinSep "\n" lines))) ∧
    (∀ (r : AsyncInfluxReporter) (c : ℚ) (so : Except String Unit) (reg : Option Registry)
       (ts : Option ℚ) (q : AsyncReportingPrecision), r.reporting_precision = .valid q →
      (async_report_now r c so reg ts).dumped = [reg.getD r.registry] ∧
      ∃ lines, async_get_influx_protocol_lines r ((reg.getD r.registry).dump_metrics)
          (validPrecTimestamp (utilsPrecOfAsync q) (pyOr ts c)) = .ok lines ∧
        (async_report_now r c so reg ts).message =
          some ⟨r.database, AsyncReportingPrecision.value q, joinSep "\n" lines⟩) ∧
    (∀ (r : CsvReporter) (c : ℚ) (reg : Option Registry) (ts : Option ℚ),
      (csv_report_now r c reg ts).dumped = [reg.getD r.registry] ∧
      (csv_report_now r c reg ts).rows = ((reg.getD r.registry).dump_metrics).map fun e =>
        csv_metric_row (formatDate (pyOr ts ((roundHalfEven c : ℤ) : ℚ))) e.1 e.2) := by
  refine ⟨fun r c sink reg ts p h => ?_, fun r c co so reg ts p h => ?_,
    fun r c so reg ts q h => ?_, fun r c reg ts => ⟨rfl, rfl⟩⟩
  · obtain ⟨lines, hg⟩ := lp_get_lines_valid r ((reg.getD r.registry).dump_metrics)
      (validPrecTimestamp p (pyOr ts c)) p h
    refine ⟨?_, lines, hg, ?_⟩ <;> simp only [Registry.dump_metrics] at hg <;>
    · simp only [lp_report_now, h, ttip_valid, Registry.dump_metrics, hg]
      by_cases hemp : lines.isEmpty <;> cases sink <;> simp [hemp]
  · obtain ⟨lines, hg⟩ := influx_get_lines_valid r ((reg.getD r.registry).dump_metrics)
      (validPrecTimestamp p (pyOr ts c)) p h
    refine ⟨?_, lines, hg, ?_⟩ <;> simp only [Registry.dump_metrics] at hg <;>
    · simp only [influx_report_now, h, ttip_valid, Registry.dump_metrics, hg]
      by_cases hemp : lines.isEmpty <;> cases so <;> simp [hemp]
  · obtain ⟨lines, hg⟩ := async_get_lines_valid r ((reg.getD r.registry).dump_metrics)
      (validPrecTimestamp (utilsPrecOfAsync q) (pyOr ts c)) q h
    refine ⟨?_, lines, hg, ?_⟩ <;> simp only [Registry.dump_metrics] at hg <;>
    · simp only [async_report_now, h, async_ttip_valid, Registry.dump_metrics, hg]
      cases so <;> simp [asyncPrecValue]

/-- Witness for C2 at a concrete reporter and snapshot. -/
theorem C2_witness :
    sampleLP.reporting_precision = PrecisionParam.valid .seconds ∧
    ((lp_report_now sampleLP 1234567890 (.ok ()) none none).dumped = [sampleRegistry] ∧
     ∃ lines, lp_get_influx_protocol_lines sampleLP
         (((none : Option Registry).getD sampleLP.registry).dump_metrics)
         (validPrecTimestamp .seconds (pyOr none 1234567890)) = .ok lines ∧
       (lp_report_now sampleLP 1234567890 (.ok ()) none none).sent =
         (if lines.isEmpty then none else some (joinSep "\n" lines))) :=
  ⟨rfl, C2_snapshot_once_and_forward.1 sampleLP 1234567890 (.ok ()) none none .seconds rfl⟩

/-- Counterexample to C3 as stated: constructing a `LineProtocolReporter`
with an unsupported precision value does not raise — construction
succeeds, no snapshot is taken on the subsequent `report_now`, and the
unsupported-precision error is raised by that `report_now` call
instead. -/
theorem C3_counterexample :
    mk_line_protocol_reporter sampleRegistry "" [] .invalid = .ok invalidLP ∧
    (lp_report_now invalidLP 7 (.ok ()) none none).result = .error .unsupportedPrecision ∧
    (lp_report_now invalidLP 7 (.ok ()) none none).dumped = [] :=
  ⟨rfl, rfl, rfl⟩

/-- C3 (amended): no reporter validates its reporting precision at
construction time — `__init__` stores the value as given and always
succeeds; an unsupported precision is surfaced on each `report_now` call
(by `to_timestamp_in_precision`, before any snapshot is taken), and a
reporter constructed with a supported precision never raises an
unsupported-precision error during `report_now`. -/
theorem C3_precision_surfaced_at_report_time :
    (∀ (reg : Registry) (px : String) (gt : Tags) (pp : PrecisionParam),
      mk_line_protocol_reporter reg px gt pp = .ok ⟨reg, px, gt, pp⟩) ∧
    (∀ (r : LineProtocolReporter) (c : ℚ) (sink : Except String Unit) (reg : Option Registry)
       (ts : Option ℚ), r.reporting_precision = .invalid →
      (lp_report_now r c sink reg ts).result = .error .unsupportedPrecision ∧
      (lp_report_now r c sink reg ts).dumped = []) ∧
    (∀ (r : LineProtocolReporter) (c : ℚ) (sink : Except String Unit) (reg : Option Registry)
       (ts : Option ℚ) (p : ReportingPrecision), r.reporting_precision = .valid p →
      (lp_report_now r c sink reg ts).result ≠ .error .unsupportedPrecision) ∧
    (∀ (r : InfluxReporter) (c : ℚ) (co so : Except String Unit) (reg : Option Registry)
       (ts : Option ℚ) (p : ReportingPrecision), r.reporting_precision = .valid p →
      (influx_report_now r c co so reg ts).result = .ok ()) := by
  refine ⟨fun reg px gt pp => rfl, fun r c sink reg ts h => ?_,
    fun r c sink reg ts p h => ?_, fun r c co so reg ts p h => ?_⟩
  · constructor <;> simp [lp_report_now, h, to_timestamp_in_precision]
  · obtain ⟨lines, hg⟩ := lp_get_lines_valid r ((reg.getD r.registry).dump_metrics)
      (validPrecTimestamp p (pyOr ts c)) p h
    simp only [Registry.dump_metrics] at hg
    simp only [lp_report_now, h, ttip_valid, Registry.dump_metrics, hg]
    by_cases hemp : lines.isEmpty <;> cases sink <;> simp [hemp]
  · obtain ⟨lines, hg⟩ := influx_get_lines_valid r ((reg.getD r.registry).dump_metrics)
      (validPrecTimestamp p (pyOr ts c)) p h
    simp only [Registry.dump_metrics] at hg
    simp only [influx_report_now, h, ttip_valid, Registry.dump_metrics, hg]
    by_cases hemp : lines.isEmpty <;> cases so <;> simp [hemp]

/-- Witness for C3 (amended): the reporter built with an unsupported
precision reports the error at report time, with no snapshot taken. -/
theorem C3_witness :
    invalidLP.reporting_precision = PrecisionParam.invalid ∧
    ((lp_report_now invalidLP 7 (.ok ()) none none).result = .error .unsupportedPrecision ∧
     (lp_report_now invalidLP 7 (.ok ()) none none).dumped = []) :=
  ⟨rfl, C3_precision_surfaced_at_report_time.2.1 invalidLP 7 (.ok ()) none none rfl⟩

/-- C5: for a metric whose snapshot field mapping contains an `events`
entry, the line-protocol reporters emit one output line per event, in
order, each timestamped with the event's own time converted to the
reporting precision — not the report timestamp; the `events` and `tags`
entries never contribute to the regular field line, and a metric whose
only content is events and tags produces no line at the report
timestamp.  Stated for `LineProtocolReporter` and `InfluxReporter` (the
two serializers cited). -/
theorem C5_event_lines (r : LineProtocolReporter) (ri : InfluxReporter) (key : MetricKey)
    (mv : MetricValues) (ts : ℤ) (p : ReportingPrecision) (evs : List EventPoint)
    (h : r.reporting_precision = .valid p)
    (_hwf : wellFormedMV mv = true)
    (hlookup : List.lookup "events" mv = some (.eventsList evs)) :
    (lp_metric_lines r key mv ts = .ok (
      (if lp_stringify_values mv = "" then []
       else [lp_get_table_name r key.get_key ++ (lp_stringify_tags r key).1 ++ " " ++
             lp_stringify_values mv ++ " " ++ toString ts]) ++
      evs.map fun ev =>
        lp_get_table_name r key.get_key ++ (lp_stringify_tags r key).1 ++ " " ++
          lp_stringify_values ev.2 ++ " " ++ toString (validPrecTimestamp p ev.1))) ∧
    (lp_stringify_values (mv.filter fun e => !(e.1 == "tags") && !(e.1 == "events")) =
      lp_stringify_values mv) ∧
    ((∀ e ∈ mv, e.1 = "events" ∨ e.1 = "tags") →
      lp_stringify_values mv = "" ∧
      lp_metric_lines r key mv ts = .ok (evs.map fun ev =>
        lp_get_table_name r key.get_key ++ (lp_stringify_tags r key).1 ++ " " ++
          lp_stringify_values ev.2 ++ " " ++ toString (validPrecTimestamp p ev.1))) ∧
    (ri.reporting_precision = .valid p →
      influx_metric_lines ri key mv ts = .ok (
        (if influx_stringify_values mv = "" then []
         else [influx_get_table_name ri key.get_key ++ (influx_stringify_tags ri key).1 ++ " " ++
               influx_stringify_values mv ++ " " ++ toString ts]) ++
        evs.map fun ev =>
          influx_get_table_name ri key.get_key ++ (influx_stringify_tags ri key).1 ++ " " ++
            influx_stringify_values ev.2 ++ " " ++ toString (validPrecTimestamp p ev.1))) := by
  have hev : getEvents mv = evs := by simp [getEvents, hlookup]
  have hfilter : ∀ e ∈ mv,
      ((!(e.1 == "tags") && !(e.1 == "events")) && (!(e.1 == "tags") && !(e.1 == "events"))) =
        (!(e.1 == "tags") && !(e.1 == "events")) := fun e _ => Bool.and_self _
  refine ⟨?_, ?_, fun hall => ?_, fun hri => ?_⟩
  · rw [lp_metric_lines_valid r key mv ts p h, hev]
  · rw [lp_stringify_values, lp_stringify_values, List.filter_filter, List.filter_congr hfilter]
  · have hnil : (mv.filter fun e => !(e.1 == "tags") && !(e.1 == "events")) = [] :=
      List.filter_eq_nil_iff.mpr fun a ha => by
        rcases hall a ha with h1 | h1 <;> simp [h1]
    have hsv : lp_stringify_values mv = "" := by
      rw [lp_stringify_values, hnil]
      rfl
    refine ⟨hsv, ?_⟩
    rw [lp_metric_lines_valid r key mv ts p h, hev, hsv]
    simp
  · rw [influx_metric_lines_eq,
      lp_metric_lines_valid (lpOfInflux ri) key mv ts p (by simpa [lpOfInflux] using hri), hev]
    rfl

/-- Witness for C5 at a concrete events-only metric. -/
theorem C5_witness :
    evLP.reporting_precision = PrecisionParam.valid .seconds ∧
    wellFormedMV evMV = true ∧
    List.lookup "events" evMV =
      some (.eventsList [(3, [("f", .field (.intV 1))]), (4, [("f", .field (.intV 2))])]) ∧
    lp_metric_lines evLP evKey evMV 99 = .ok (
      (if lp_stringify_values evMV = "" then []
       else [lp_get_table_name evLP evKey.get_key ++ (lp_stringify_tags evLP evKey).1 ++ " " ++
             lp_stringify_values evMV ++ " " ++ toString (99 : ℤ)]) ++
      ([(3, [("f", .field (.intV 1))]), (4, [("f", .field (.intV 2))])] :
          List EventPoint).map fun ev =>
        lp_get_table_name evLP evKey.get_key ++ (lp_stringify_tags evLP evKey).1 ++ " " ++
          lp_stringify_values ev.2 ++ " " ++ toString (validPrecTimestamp .seconds ev.1)) :=
  ⟨rfl, rfl, rfl,
   (C5_event_lines evLP ⟨evRegistry, "pre", [("g", .strV "gv")], .valid .seconds, "metrics",
      false, false⟩ evKey evMV 99 .seconds
      [(3, [("f", .field (.intV 1))]), (4, [("f", .field (.intV 2))])] rfl rfl rfl).1⟩

/-- C6: the line-protocol reporter delivers the identity's tag mapping in
the comma-separated tag section of every emitted line (merged over the
reporter's global tags, with each space, comma and equals sign in a
string tag value escaped by a backslash) and never as a field value,
while the CSV reporter writes it as a `tags` column of the metric's
row. -/
theorem C6_tags_delivery :
    (∀ (r : LineProtocolReporter) (key : MetricKey) (mv : MetricValues) (ts : ℤ)
       (p : ReportingPrecision) (lines : List String),
      r.reporting_precision = .valid p →
      lp_metric_lines r key mv ts = .ok lines →
      ∀ line ∈ lines, ∃ rest,
        line = lp_get_table_name r key.get_key ++ (lp_stringify_tags r key).1 ++ " " ++ rest) ∧
    (∀ s : String, lp_format_tag_value (.strV s) = .strV (String.join (s.data.map fun c =>
      if c = ' ' || c = ',' || c = '=' then "\\" ++ String.singleton c
      else String.singleton c))) ∧
    (∀ mv : MetricValues,
      lp_stringify_values (mv.filter fun e => !(e.1 == "tags")) = lp_stringify_values mv) ∧
    (∀ (key : MetricKey) (mv : MetricValues) (date : String),
      ∃ f value_keys,
        csv_metric_row date key mv =
          (key.key ++ ".csv", "timestamp" :: value_keys, date :: value_keys.map f) ∧
        "tags" ∈ value_keys ∧ f "tags" = pyDictStr key.tags) := by
  refine ⟨fun r key mv ts p lines h hlines line hmem => ?_, fun s => rfl, fun mv => ?_,
    fun key mv date => ?_⟩
  · rw [lp_metric_lines_valid r key mv ts p h] at hlines
    injection hlines with hlines
    subst hlines
    rcases List.mem_append.mp hmem with hm | hm
    · by_cases hsv : lp_stringify_values mv = ""
      · simp [hsv] at hm
      · rw [if_neg hsv] at hm
        rw [List.mem_singleton.mp hm]
        exact ⟨lp_stringify_values mv ++ " " ++ toString ts, by simp [String.append_assoc]⟩
    · obtain ⟨ev, hev, rfl⟩ := List.mem_map.mp hm
      exact ⟨lp_stringify_values ev.2 ++ " " ++ toString (validPrecTimestamp p ev.1),
        by simp [String.append_assoc]⟩
  · have hfilter : ∀ e ∈ mv,
        ((!(e.1 == "tags") && !(e.1 == "events")) && !(e.1 == "tags")) =
          (!(e.1 == "tags") && !(e.1 == "events")) := fun e _ => by
      cases h1 : e.1 == "tags" <;> cases h2 : e.1 == "events" <;> rfl
    rw [lp_stringify_values, lp_stringify_values, List.filter_filter, List.filter_congr hfilter]
  · refine ⟨fun vk => pyStr ((List.lookup vk
        (dictSetMV mv "tags" (.tagsMap key.tags))).getD (.field (.strV ""))),
      sortStrings ((dictSetMV mv "tags" (.tagsMap key.tags)).map
        (Prod.fst : String × MetricEntryVal → String)), ?_, ?_, ?_⟩
    · rfl
    · exact (mem_sortStrings _ _).mpr (mem_keys_dictSetMV mv "tags" _)
    · simp only [lookup_dictSetMV, Option.getD_some]
      rfl

/-- Witness for C6 at a concrete tagged metric with events. -/
theorem C6_witness :
    evLP.reporting_precision = PrecisionParam.valid .seconds ∧
    lp_metric_lines evLP evKey evMV 99 =
      .ok ["pre.ev,g=gv,host=h\\ one f=1 3", "pre.ev,g=gv,host=h\\ one f=2 4"] ∧
    ∀ line ∈ ["pre.ev,g=gv,host=h\\ one f=1 3", "pre.ev,g=gv,host=h\\ one f=2 4"], ∃ rest,
      line = lp_get_table_name evLP evKey.get_key ++ (lp_stringify_tags evLP evKey).1 ++
        " " ++ rest :=
  ⟨rfl, rfl,
   C6_tags_delivery.1 evLP evKey evMV 99 .seconds
     ["pre.ev,g=gv,host=h\\ one f=1 3", "pre.ev,g=gv,host=h\\ one f=2 4"] rfl rfl⟩

end Pyformance
